import Mathlib

/-!
Verification of the AI-Based Food & Restaurant Recommendation System backend
(`Backend/main.py`, `Backend/import_data.py`).

The Python code is shallowly embedded: restaurant documents become a
`Restaurant` structure whose fields are `Option`-typed exactly where the code
reads them through `dict.get` with a default; Python floats become `ℚ`
(the arithmetic in the scoring and filtering code is exact decimal
arithmetic on the modelled values); the external geodesic computation and
the Google Places HTTP interaction are abstracted as explicit parameters,
since only their presence/absence and fallback handling matter to the
pipeline.  Python string operations are modelled on `String` / `List Char`:
`s.strip()` as `pyStrip` (dropping `Char.isWhitespace` characters from both
ends; Python also strips `\x0b`/`\x0c`, which never occur in this data
model), `s.lower()` as the per-character `lowerL` (ASCII case folding, as
in this data set), `needle in hay` as the substring test `pyIn`.
-/

/-- Python `str.strip()` whitespace class (modulo `\x0b`/`\x0c`). -/
def wsChar (c : Char) : Bool := c.isWhitespace

/-- Python `s.strip()` on a character list: drop whitespace from the front,
then from the back. -/
def pyStrip (l : List Char) : List Char :=
  ((l.dropWhile wsChar).reverse.dropWhile wsChar).reverse

/-- Python `s.strip()` on a string. -/
def pyStripS (s : String) : String := ⟨pyStrip s.data⟩

/-- Python `s.lower()` on a character list (per-character case folding). -/
def lowerL (l : List Char) : List Char := l.map Char.toLower

/-- Python's `needle in hay` substring containment on character lists:
true iff `needle` occurs contiguously inside `hay`. -/
def pyIn (needle : List Char) : List Char → Bool
  | [] => needle.isEmpty
  | c :: t => needle.isPrefixOf (c :: t) || pyIn needle t

/-- Case-insensitive substring test: `must.lower() in key.lower()`. -/
def substrCI (needle hay : String) : Bool :=
  pyIn (lowerL needle.data) (lowerL hay.data)

/-- A restaurant document as read by `main.py`.  Fields that the code reads
via `r.get(key, default)` (or `r.get(key)`) are `Option`-typed; the default
is applied at each use site exactly as in the source. -/
structure Restaurant where
  name : String
  locality : Option String
  cost_for_two : Option ℤ
  spicy_level : Option String
  cuisines : List String
  rating : Option ℚ
  latitude : Option ℚ
  longitude : Option ℚ
  open_now : Option String
deriving DecidableEq, Repr

/-- The `RecommendationRequest` pydantic model (defaults are applied by the
caller when constructing a value). -/
structure RecommendationRequest where
  city : String
  area : String
  latitude : ℚ
  longitude : ℚ
  taste_preference : String
  budget_min : ℤ
  budget_max : ℤ
deriving DecidableEq, Repr

/-- `str(r.get("locality", ""))`. -/
def localityOf (r : Restaurant) : String := r.locality.getD ""

/-- `r.get("cost_for_two", 500)`. -/
def costOf (r : Restaurant) : ℤ := r.cost_for_two.getD 500

/-- Step 2 exact branch: locality stripped+lowered equals the stripped area
lowered (`str(r.get("locality","")).strip().lower() == area_text.lower()`). -/
def areaExact (areaText : String) (W : List Restaurant) : List Restaurant :=
  W.filter (fun r => lowerL (pyStrip (localityOf r).data) == lowerL areaText.data)

/-- Step 2 substring branch:
`area_text.lower() in str(r.get("locality","")).lower()`. -/
def areaSubstr (areaText : String) (W : List Restaurant) : List Restaurant :=
  W.filter (fun r => pyIn (lowerL areaText.data) (lowerL (localityOf r).data))

/-- STEP 2 of `recommend_restaurants`: area filter with exact → substring →
full-city fallback.  The guard mirrors `if request.area and
request.area.strip():` (Python truthiness of both strings). -/
def areaStage (area : String) (W : List Restaurant) : List Restaurant :=
  if area = "" ∨ pyStripS area = "" then W
  else if areaExact (pyStripS area) W ≠ [] then areaExact (pyStripS area) W
  else if areaSubstr (pyStripS area) W ≠ [] then areaSubstr (pyStripS area) W
  else W

/-- Strict budget filter: `budget_min <= cost_for_two <= budget_max`. -/
def budgetStrict (bmin bmax : ℤ) (W : List Restaurant) : List Restaurant :=
  W.filter (fun r => decide (bmin ≤ costOf r) && decide (costOf r ≤ bmax))

/-- Relaxed budget filter: `cost_for_two <= budget_max + 500`. -/
def budgetRelaxed (bmax : ℤ) (W : List Restaurant) : List Restaurant :=
  W.filter (fun r => decide (costOf r ≤ bmax + 500))

/-- The `budget_filtered` value after the `< 3` relaxation (before the
final emptiness fallback). -/
def budgetPicked (bmin bmax : ℤ) (W : List Restaurant) : List Restaurant :=
  if (budgetStrict bmin bmax W).length < 3 then budgetRelaxed bmax W
  else budgetStrict bmin bmax W

/-- STEP 3 of `recommend_restaurants`: budget filter with the 99999
sentinel, the `< 3` relaxation and the final emptiness fallback. -/
def budgetStage (bmin bmax : ℤ) (W : List Restaurant) : List Restaurant :=
  if 99999 ≤ bmax then W
  else if budgetPicked bmin bmax W = [] then W
  else budgetPicked bmin bmax W

/-- `" ".join(r.get("cuisines", []))`. -/
def cuisinesJoined (r : Restaurant) : String := String.intercalate " " r.cuisines

/-- Keyword list for the spicy fallback branch of `filter_by_taste`. -/
def spicyKw : List String := ["biryani", "andhra", "chettinad", "kebab", "mughlai", "schezwan"]

/-- Keyword list for the mild fallback branch of `filter_by_taste`. -/
def mildKw : List String := ["cafe", "continental", "south indian", "italian", "dessert", "bakery"]

/-- The first `filtered` value of `filter_by_taste` (`pref` already
lowercased): spicy keeps `spicy_level == "High"`, anything else keeps
`spicy_level in ["Low", "Medium"]`. -/
def tasteLevelFiltered (restaurants : List Restaurant) (pref : String) : List Restaurant :=
  if pref = "spicy" then
    restaurants.filter (fun r => r.spicy_level == some "High")
  else
    restaurants.filter (fun r =>
      r.spicy_level == some "Low" || r.spicy_level == some "Medium")

/-- The keyword-fallback filter of `filter_by_taste`: any keyword of the
preference's list occurring in the joined, lowercased cuisines text. -/
def tasteKeywordFiltered (restaurants : List Restaurant) (pref : String) : List Restaurant :=
  restaurants.filter (fun r =>
    (if pref = "spicy" then spicyKw else mildKw).any
      (fun k => pyIn k.data (lowerL (cuisinesJoined r).data)))

/-- The `filtered` value of `filter_by_taste` after the keyword retry. -/
def tastePicked (restaurants : List Restaurant) (pref : String) : List Restaurant :=
  if tasteLevelFiltered restaurants pref = [] then tasteKeywordFiltered restaurants pref
  else tasteLevelFiltered restaurants pref

/-- `filter_by_taste` from `main.py`: spicy-level filter, then keyword
fallback against the joined cuisines text, then identity fallback. -/
def filter_by_taste (restaurants : List Restaurant) (preference : String) : List Restaurant :=
  if tastePicked restaurants ⟨lowerL preference.data⟩ = [] then restaurants
  else tastePicked restaurants ⟨lowerL preference.data⟩

/-- Python truthiness of a possibly-missing float (`if lat2 and lon2`):
`None` and `0.0` are falsy. -/
def truthy (o : Option ℚ) : Bool :=
  match o with
  | none => false
  | some v => !(v == 0)

/-- `calculate_distance` from `main.py`.  The geodesic computation itself is
an external library call on real numbers; it is abstracted as the parameter
`geo`.  The `except` branch (also returning 5.0) is unrepresentable in a
total embedding and `geo` stands for a completed computation. -/
def calculate_distance (geo : ℚ → ℚ → ℚ → ℚ → ℚ) (lat1 lon1 : ℚ)
    (lat2 lon2 : Option ℚ) : ℚ :=
  if truthy lat2 && truthy lon2 then geo lat1 lon1 (lat2.getD 0) (lon2.getD 0)
  else 5

/-- Python `x or default` on a possibly-missing float: yields `default` when
`x` is `None` or `0.0`. -/
def pyOr (o : Option ℚ) (d : ℚ) : ℚ :=
  match o with
  | none => d
  | some v => if v = 0 then d else v

/-- The per-record distance computed in STEP 5:
`calculate_distance(lat, lon, r.get("latitude") or 17.3850, r.get("longitude") or 78.4867)`. -/
def distanceKmOf (geo : ℚ → ℚ → ℚ → ℚ → ℚ) (lat lon : ℚ) (r : Restaurant) : ℚ :=
  calculate_distance geo lat lon (some (pyOr r.latitude 17.3850)) (some (pyOr r.longitude 78.4867))

/-- STEP 5 of `recommend_restaurants`: when GPS is present, annotate each
record with its distance and prefer the ≤10 km subset (if it has ≥3
members), else the ≤20 km subset (if non-empty), else everything; without
GPS every distance is 0.0 and the set passes through. -/
def distanceStage (geo : ℚ → ℚ → ℚ → ℚ → ℚ) (lat lon : ℚ)
    (W : List Restaurant) : List (Restaurant × ℚ) :=
  if lat ≠ 0 ∧ lon ≠ 0 then
    if 3 ≤ ((W.map (fun r => (r, distanceKmOf geo lat lon r))).filter
        (fun rd => decide (rd.2 ≤ 10))).length then
      (W.map (fun r => (r, distanceKmOf geo lat lon r))).filter
        (fun rd => decide (rd.2 ≤ 10))
    else if (W.map (fun r => (r, distanceKmOf geo lat lon r))).filter
        (fun rd => decide (rd.2 ≤ 20)) ≠ [] then
      (W.map (fun r => (r, distanceKmOf geo lat lon r))).filter
        (fun rd => decide (rd.2 ≤ 20))
    else W.map (fun r => (r, distanceKmOf geo lat lon r))
  else W.map (fun r => (r, 0))

/-- STEPS 2–5 of `recommend_restaurants` composed: the working set that
reaches the terminal `if not final_list` 404 check. -/
def recommendPipeline (geo : ℚ → ℚ → ℚ → ℚ → ℚ) (req : RecommendationRequest)
    (allInCity : List Restaurant) : List (Restaurant × ℚ) :=
  distanceStage geo req.latitude req.longitude
    (filter_by_taste
      (budgetStage req.budget_min req.budget_max (areaStage req.area allInCity))
      req.taste_preference)

/-- `rating_score = r.get("rating", 0) / 5.0`. -/
def rating_score (r : Restaurant) : ℚ := r.rating.getD 0 / 5

/-- `distance_score = max(0.0, 1.0 - dist / 20.0)`. -/
def distance_score (dist : ℚ) : ℚ := max 0 (1 - dist / 20)

/-- The `budget_score` local of `calculate_ai_score`: midpoint fit when a
real budget is set, 0.8 under the sentinel. -/
def budget_score (bmin bmax cost : ℤ) : ℚ :=
  if bmax < 99999 then
    if |(cost : ℚ) - ((bmin : ℚ) + (bmax : ℚ)) / 2| < 200 then 1
    else if |(cost : ℚ) - ((bmin : ℚ) + (bmax : ℚ)) / 2| < 500 then 0.7
    else 0.4
  else 0.8

/-- `calculate_ai_score` from `main.py`.  The record's `distance_km` entry
(set in STEP 5) is passed explicitly as `dist`; the `isinstance(dist, str)`
guard is vacuous in the typed embedding. -/
def calculate_ai_score (r : Restaurant) (dist : ℚ) (bmin bmax : ℤ) : ℚ :=
  0.35 * rating_score r + 0.30 * distance_score dist +
    0.20 * budget_score bmin bmax (costOf r) + 0.15 * 1.0

/-- The budget-fit signal exactly as the spec words it (for comparison with
`calculate_ai_score`): 0.8 when `budget_max >= 99999`, else 1.0 / 0.7 / 0.4
by distance of the cost from the budget midpoint. -/
def budgetScoreSpec (bmin bmax cost : ℤ) : ℚ :=
  if 99999 ≤ bmax then 0.8
  else if |(cost : ℚ) - ((bmin : ℚ) + (bmax : ℚ)) / 2| < 200 then 1
  else if |(cost : ℚ) - ((bmin : ℚ) + (bmax : ℚ)) / 2| < 500 then 0.7
  else 0.4

/-- The dictionary returned by `get_google_places_data`.  Every return path
of the source populates both keys, but the response assembly reads them
through `dict.get` with a default, so they are modelled as options. -/
structure GoogleInfo where
  is_open : Option Bool
  map_link : Option String
deriving DecidableEq, Repr

/-- `(name + " Hyderabad").replace(" ", "+")` (single-character replace is a
per-character map). -/
def plusEncode (s : String) : String :=
  ⟨s.data.map (fun c => if c = ' ' then '+' else c)⟩

/-- The deterministic fallback map link built at the top of
`get_google_places_data`. -/
def fallbackMapLink (name : String) : String :=
  "https://www.google.com/maps/search/?api=1&query=" ++ plusEncode (name ++ " Hyderabad")

/-- `get_google_places_data` from `main.py`.  The two chained HTTP calls
are abstracted as `ext`: `none` models every failure path (exception,
timeout, non-OK status, no candidates), `some det` a successful details
lookup with its optional `open_now` flag and `url`.  `addr` only feeds the
abstracted text query. -/
def get_google_places_data (apiKey : String)
    (ext : Option (Option Bool × Option String)) (name _addr : String) : GoogleInfo :=
  if apiKey = "" then ⟨some true, some (fallbackMapLink name)⟩
  else
    match ext with
    | some det => ⟨some (det.1.getD true), some (det.2.getD (fallbackMapLink name))⟩
    | none => ⟨some true, some (fallbackMapLink name)⟩

/-- The response field `"is_open": google.get("is_open", r.get("open_now", "Yes") == "Yes")`. -/
def respIsOpen (g : GoogleInfo) (r : Restaurant) : Bool :=
  g.is_open.getD (r.open_now.getD "Yes" == "Yes")

/-- The response field `"map_link": google.get("map_link", "")`. -/
def respMapLink (g : GoogleInfo) : String := g.map_link.getD ""

/-- `clean_cuisines` from `import_data.py`: `None` (NaN) becomes `[]`,
otherwise the raw field is split on commas and each token stripped. -/
def clean_cuisines : Option String → List (List Char)
  | none => []
  | some s => (s.data.splitOn ',').map pyStrip

/-- One row of the cuisine-popularity aggregation in `get_famous_foods`:
`{_id, count, avg_rating, popularity_score}` (the pipeline always sets
`popularity_score = count * avg_rating`). -/
structure CuisineAgg where
  id : String
  count : ℤ
  avg_rating : ℚ
  popularity_score : ℚ
deriving DecidableEq, Repr

/-- One entry of the famous-foods response:
`{name, cuisine_type, popularity_score}`. -/
structure FamousFood where
  name : String
  cuisine_type : String
  popularity_score : ℚ
deriving DecidableEq, Repr

/-- Python `round(x, 2)` on the modelled rationals (`round` here resolves
ties upward; Python rounds ties to even — the popularity scores in this
data never hit an exact tie at the third decimal). -/
def round2 (q : ℚ) : ℚ := (round (q * 100) : ℤ) / 100

/-- Projection of an aggregation row to a response entry. -/
def projFood (r : CuisineAgg) : FamousFood := ⟨r.id, r.id, round2 r.popularity_score⟩

/-- The fixed must-show priority list of `get_famous_foods`. -/
def MUST_SHOW : List String := ["Biryani", "South Indian", "Haleem", "Andhra", "Cafe"]

/-- `cuisine_map[must]`: with the unique ids produced by `$group`, the
Python dict lookup is the first row with that id. -/
def exactFind (rs : List CuisineAgg) (must : String) : Option CuisineAgg :=
  rs.find? (fun r => r.id == must)

/-- The partial-match scan of the must-show loop over `(final, seen)`:
take the first row (in insertion order, matching the dict's iteration
order) whose lowercased id contains the lowercased label and whose id is
unused; record its id as seen. -/
def substrStep (rs : List CuisineAgg) (st : List CuisineAgg × List String)
    (must : String) : List CuisineAgg × List String :=
  match rs.find? (fun r => substrCI must r.id && !(st.2.contains r.id)) with
  | some r => (st.1 ++ [r], st.2 ++ [r.id])
  | none => st

/-- One iteration of the must-show loop: exact (case-sensitive, unused)
match first, else the partial scan. -/
def mustShowStep (rs : List CuisineAgg) (st : List CuisineAgg × List String)
    (must : String) : List CuisineAgg × List String :=
  match exactFind rs must with
  | some r =>
    if st.2.contains must then substrStep rs st must
    else (st.1 ++ [r], st.2 ++ [must])
  | none => substrStep rs st must

/-- The `(final, seen)` state after the must-show loop. -/
def priorityPass (rs : List CuisineAgg) : List CuisineAgg × List String :=
  MUST_SHOW.foldl (mustShowStep rs) ([], [])

/-- One iteration of the popularity fill loop: append an unused row while
fewer than 7 entries are collected. -/
def fillStep (st : List CuisineAgg × List String) (r : CuisineAgg) :
    List CuisineAgg × List String :=
  if !(st.2.contains r.id) && decide (st.1.length < 7) then (st.1 ++ [r], st.2 ++ [r.id])
  else st

/-- `get_famous_foods` from `main.py`, given the aggregation rows (the
top-20 cuisines by popularity, ranked descending). -/
def get_famous_foods (rs : List CuisineAgg) : List FamousFood :=
  ((rs.foldl fillStep (priorityPass rs)).1.take 7).map projFood

/-- Every seen id names a row already appended to `final` (loop invariant
of `get_famous_foods`). -/
def SeenCovered (st : List CuisineAgg × List String) : Prop :=
  ∀ s ∈ st.2, ∃ r ∈ st.1, r.id = s

/-- Some row of `l` matches the label case-insensitively. -/
def hasMatchIn (l : List CuisineAgg) (must : String) : Prop :=
  ∃ r ∈ l, substrCI must r.id = true

/-- A sample aggregation row for instantiating the famous-foods result. -/
def sampleAgg : CuisineAgg := ⟨"Biryani", 3, 4, 12⟩

/-- A ranked candidate as it enters STEP 6: a record dict carrying the
`distance_km` and `ai_score` entries set by STEPS 5–6. -/
structure Scored where
  rest : Restaurant
  distance_km : ℚ
  ai_score : ℚ
deriving DecidableEq, Repr

/-- The ordering of `final_list.sort(key=lambda x: x["ai_score"], reverse=True)`:
`a` may precede `b` iff `b`'s score is no larger.  Python's sort is stable,
as is `List.mergeSort`. -/
def rankLe (a b : Scored) : Bool := decide (b.ai_score ≤ a.ai_score)

/-- STEP 6 sort: stable descending sort by `ai_score`. -/
def rankSort (l : List Scored) : List Scored := l.mergeSort rankLe

/-- `top_results = final_list[:20]`. -/
def topResults (l : List Scored) : List Scored := (rankSort l).take 20

/-- A sample restaurant document used to instantiate proved implications. -/
def sampleRest : Restaurant :=
  ⟨"Cafe Bahar", some "Basheerbagh", some 400, some "High",
   ["Biryani", "North Indian"], some 4, some 17, some 78, some "Yes"⟩

/-- A sample restaurant whose stored `open_now` flag is `"No"`. -/
def closedRest : Restaurant :=
  ⟨"Night Owl", some "Gachibowli", some 700, some "Medium",
   ["Cafe"], some 4, some 17, some 78, some "No"⟩

/-- A sample geodesic function for instantiating distance-related results. -/
def constGeo : ℚ → ℚ → ℚ → ℚ → ℚ := fun _ _ _ _ => 7

/-- A sample recommendation request (defaults of the pydantic model). -/
def sampleReq : RecommendationRequest := ⟨"Hyderabad", "", 0, 0, "spicy", 0, 99999⟩

theorem areaStage_ne_nil (area : String) (W : List Restaurant) (hW : W ≠ []) :
    areaStage area W ≠ [] := by
  unfold areaStage
  split_ifs with h1 h2 h3
  · exact hW
  · exact h2
  · exact h3
  · exact hW

theorem budgetStage_ne_nil (bmin bmax : ℤ) (W : List Restaurant) (hW : W ≠ []) :
    budgetStage bmin bmax W ≠ [] := by
  unfold budgetStage
  split_ifs with h1 h2
  · exact hW
  · exact hW
  · exact h2

theorem filter_by_taste_ne_nil (rs : List Restaurant) (pref : String) (h : rs ≠ []) :
    filter_by_taste rs pref ≠ [] := by
  unfold filter_by_taste
  split_ifs with h1
  · exact h
  · exact h1

theorem distanceStage_ne_nil (geo : ℚ → ℚ → ℚ → ℚ → ℚ) (lat lon : ℚ)
    (W : List Restaurant) (hW : W ≠ []) : distanceStage geo lat lon W ≠ [] := by
  unfold distanceStage
  split_ifs with h1 h2 h3
  · intro hnil
    rw [hnil] at h2
    simp at h2
  · exact h3
  · simpa using hW
  · simpa using hW

/-- C1: for a record with rating in [0,5] and non-negative distance, the
AI score equals the spec's weighted-sum formula (with `budgetScoreSpec` as
the budget-fit signal) and lies in the closed interval [0.15, 1.0]. -/
theorem ai_score_bounded (r : Restaurant) (dist : ℚ) (bmin bmax : ℤ)
    (hr0 : 0 ≤ r.rating.getD 0) (hr5 : r.rating.getD 0 ≤ 5) (hd : 0 ≤ dist) :
    calculate_ai_score r dist bmin bmax =
      0.35 * (r.rating.getD 0 / 5) + 0.30 * max 0 (1 - dist / 20) +
        0.20 * budgetScoreSpec bmin bmax (costOf r) + 0.15 ∧
    0.15 ≤ calculate_ai_score r dist bmin bmax ∧
    calculate_ai_score r dist bmin bmax ≤ 1 := by
  have hb : (2 : ℚ) / 5 ≤ budgetScoreSpec bmin bmax (costOf r) ∧
      budgetScoreSpec bmin bmax (costOf r) ≤ 1 := by
    unfold budgetScoreSpec
    split_ifs <;> norm_num
  have hbs : budget_score bmin bmax (costOf r) = budgetScoreSpec bmin bmax (costOf r) := by
    unfold budget_score budgetScoreSpec
    split_ifs <;> first | rfl | omega
  have heq : calculate_ai_score r dist bmin bmax =
      0.35 * (r.rating.getD 0 / 5) + 0.30 * max 0 (1 - dist / 20) +
        0.20 * budgetScoreSpec bmin bmax (costOf r) + 0.15 := by
    unfold calculate_ai_score rating_score distance_score
    rw [hbs]
    ring
  have hrs0 : (0 : ℚ) ≤ r.rating.getD 0 / 5 := by positivity
  have hrs1 : r.rating.getD 0 / 5 ≤ 1 := by
    rw [div_le_one (by norm_num)]
    exact hr5
  have hds0 : (0 : ℚ) ≤ max 0 (1 - dist / 20) := le_max_left 0 _
  have hds1 : max 0 (1 - dist / 20) ≤ 1 := by
    apply max_le (by norm_num)
    have : (0 : ℚ) ≤ dist / 20 := by positivity
    linarith
  refine ⟨heq, ?_, ?_⟩
  · rw [heq]
    nlinarith [hb.1, hb.2]
  · rw [heq]
    nlinarith [hb.1, hb.2]

/-- Witness for C1: the bounds instantiated at a concrete record, distance
and budget. -/
theorem ai_score_bounded_witness :
    (0 ≤ sampleRest.rating.getD 0 ∧ sampleRest.rating.getD 0 ≤ 5 ∧ (0 : ℚ) ≤ 3) ∧
    (0.15 ≤ calculate_ai_score sampleRest 3 200 900 ∧
      calculate_ai_score sampleRest 3 200 900 ≤ 1) :=
  ⟨⟨by decide, by decide, by decide⟩,
    (ai_score_bounded sampleRest 3 200 900 (by decide) (by decide) (by decide)).2⟩

/-- C6: with the 99999 sentinel the budget stage returns its input working
set unchanged. -/
theorem budget_stage_sentinel_noop (bmin : ℤ) (W : List Restaurant) :
    budgetStage bmin 99999 W = W := by
  simp [budgetStage]

/-- C9: `calculate_distance` is total; whenever the destination latitude or
longitude is missing or zero (Python-falsy) it returns exactly 5.0, and
otherwise it returns the (abstracted) great-circle distance of the two
coordinate pairs. -/
theorem calculate_distance_total_fallback (geo : ℚ → ℚ → ℚ → ℚ → ℚ)
    (lat1 lon1 : ℚ) (lat2 lon2 : Option ℚ) :
    (truthy lat2 = false ∨ truthy lon2 = false →
      calculate_distance geo lat1 lon1 lat2 lon2 = 5) ∧
    (truthy lat2 = true → truthy lon2 = true →
      calculate_distance geo lat1 lon1 lat2 lon2 =
        geo lat1 lon1 (lat2.getD 0) (lon2.getD 0)) := by
  constructor
  · intro h
    rcases h with h | h <;> simp [calculate_distance, h]
  · intro h1 h2
    simp [calculate_distance, h1, h2]

/-- Witness for C9: a zero destination longitude forces the 5.0 km fallback. -/
theorem calculate_distance_total_fallback_witness :
    calculate_distance constGeo 17 78 (some 12) (some 0) = 5 :=
  (calculate_distance_total_fallback constGeo 17 78 (some 12) (some 0)).1
    (Or.inr (by decide))

/-- C5: with a non-empty working set the area stage never returns an empty
set, and (whenever the Python gate `request.area.strip()` is truthy) it is
the exact-match filter if non-empty, else the substring filter if
non-empty, else the untouched input set. -/
theorem area_stage_cascade (area : String) (W : List Restaurant) (hW : W ≠ []) :
    areaStage area W ≠ [] ∧
    (pyStripS area ≠ "" →
      (areaExact (pyStripS area) W ≠ [] → areaStage area W = areaExact (pyStripS area) W) ∧
      (areaExact (pyStripS area) W = [] → areaSubstr (pyStripS area) W ≠ [] →
        areaStage area W = areaSubstr (pyStripS area) W) ∧
      (areaExact (pyStripS area) W = [] → areaSubstr (pyStripS area) W = [] →
        areaStage area W = W)) := by
  refine ⟨areaStage_ne_nil area W hW, ?_⟩
  intro ht
  have hgate : ¬(area = "" ∨ pyStripS area = "") := by
    rintro (h | h)
    · exact ht (by rw [h]; decide)
    · exact ht h
  refine ⟨?_, ?_, ?_⟩
  · intro hex
    unfold areaStage
    rw [if_neg hgate, if_pos hex]
  · intro hex hsub
    unfold areaStage
    rw [if_neg hgate, if_neg (fun h => h hex), if_pos hsub]
  · intro hex hsub
    unfold areaStage
    rw [if_neg hgate, if_neg (fun h => h hex), if_neg (fun h => h hsub)]

/-- Witness for C5: the cascade instantiated at a concrete area and a
one-record working set. -/
theorem area_stage_cascade_witness :
    ([sampleRest] ≠ []) ∧
    (areaStage "Basheerbagh" [sampleRest] ≠ [] ∧
      (pyStripS "Basheerbagh" ≠ "" →
        (areaExact (pyStripS "Basheerbagh") [sampleRest] ≠ [] →
          areaStage "Basheerbagh" [sampleRest] = areaExact (pyStripS "Basheerbagh") [sampleRest]) ∧
        (areaExact (pyStripS "Basheerbagh") [sampleRest] = [] →
          areaSubstr (pyStripS "Basheerbagh") [sampleRest] ≠ [] →
          areaStage "Basheerbagh" [sampleRest] = areaSubstr (pyStripS "Basheerbagh") [sampleRest]) ∧
        (areaExact (pyStripS "Basheerbagh") [sampleRest] = [] →
          areaSubstr (pyStripS "Basheerbagh") [sampleRest] = [] →
          areaStage "Basheerbagh" [sampleRest] = [sampleRest]))) :=
  ⟨by simp, area_stage_cascade "Basheerbagh" [sampleRest] (by simp)⟩

/-- C4: with a real budget bound (`budget_max < 99999`) and a non-empty
pre-budget set, the budget stage is non-empty and follows the cascade:
the strict in-range filter when it has ≥3 records, else the relaxed
`cost ≤ budget_max + 500` filter when non-empty, else the pre-budget set. -/
theorem budget_stage_cascade (bmin bmax : ℤ) (W : List Restaurant)
    (hmax : bmax < 99999) (hW : W ≠ []) :
    budgetStage bmin bmax W ≠ [] ∧
    (3 ≤ (budgetStrict bmin bmax W).length →
      budgetStage bmin bmax W = budgetStrict bmin bmax W) ∧
    ((budgetStrict bmin bmax W).length < 3 → budgetRelaxed bmax W ≠ [] →
      budgetStage bmin bmax W = budgetRelaxed bmax W) ∧
    ((budgetStrict bmin bmax W).length < 3 → budgetRelaxed bmax W = [] →
      budgetStage bmin bmax W = W) := by
  have hsent : ¬(99999 ≤ bmax) := by omega
  refine ⟨budgetStage_ne_nil bmin bmax W hW, ?_, ?_, ?_⟩
  · intro h3
    have hpick : budgetPicked bmin bmax W = budgetStrict bmin bmax W := by
      unfold budgetPicked
      rw [if_neg (by omega)]
    have hne : budgetPicked bmin bmax W ≠ [] := by
      rw [hpick]
      intro hnil
      rw [hnil] at h3
      simp at h3
    unfold budgetStage
    rw [if_neg hsent, if_neg hne, hpick]
  · intro h3 hrel
    have hpick : budgetPicked bmin bmax W = budgetRelaxed bmax W := by
      unfold budgetPicked
      rw [if_pos h3]
    unfold budgetStage
    rw [if_neg hsent, if_neg (by rw [hpick]; exact hrel), hpick]
  · intro h3 hrel
    have hpick : budgetPicked bmin bmax W = [] := by
      unfold budgetPicked
      rw [if_pos h3, hrel]
    unfold budgetStage
    rw [if_neg hsent, if_pos hpick]

/-- Witness for C4: the cascade instantiated at budget [0, 1000] and a
one-record working set. -/
theorem budget_stage_cascade_witness :
    ((1000 : ℤ) < 99999 ∧ [sampleRest] ≠ []) ∧
    (budgetStage 0 1000 [sampleRest] ≠ [] ∧
      (3 ≤ (budgetStrict 0 1000 [sampleRest]).length →
        budgetStage 0 1000 [sampleRest] = budgetStrict 0 1000 [sampleRest]) ∧
      ((budgetStrict 0 1000 [sampleRest]).length < 3 → budgetRelaxed 1000 [sampleRest] ≠ [] →
        budgetStage 0 1000 [sampleRest] = budgetRelaxed 1000 [sampleRest]) ∧
      ((budgetStrict 0 1000 [sampleRest]).length < 3 → budgetRelaxed 1000 [sampleRest] = [] →
        budgetStage 0 1000 [sampleRest] = [sampleRest])) :=
  ⟨⟨by decide, by simp⟩, budget_stage_cascade 0 1000 [sampleRest] (by decide) (by simp)⟩

/-- C10: every stage after city resolution maps a non-empty working set to
a non-empty one, so the working set reaching the terminal
`if not final_list` 404 check is never empty — the check is unreachable
once the city resolved to at least one record. -/
theorem pipeline_nonempty (geo : ℚ → ℚ → ℚ → ℚ → ℚ) (req : RecommendationRequest)
    (allInCity : List Restaurant) (h : allInCity ≠ []) :
    recommendPipeline geo req allInCity ≠ [] := by
  unfold recommendPipeline
  exact distanceStage_ne_nil _ _ _ _
    (filter_by_taste_ne_nil _ _
      (budgetStage_ne_nil _ _ _
        (areaStage_ne_nil _ _ h)))

/-- Witness for C10: the full pipeline on a concrete one-record city set
under the default request. -/
theorem pipeline_nonempty_witness :
    ([sampleRest] ≠ []) ∧ recommendPipeline constGeo sampleReq [sampleRest] ≠ [] :=
  ⟨by simp, pipeline_nonempty constGeo sampleReq [sampleRest] (by simp)⟩

theorem head?_dropWhile_not (p : Char → Bool) (l : List Char) (a : Char)
    (h : (l.dropWhile p).head? = some a) : p a = false := by
  induction l with
  | nil => simp at h
  | cons c t ih =>
    rw [List.dropWhile_cons] at h
    by_cases hc : p c
    · rw [if_pos hc] at h
      exact ih h
    · rw [if_neg hc] at h
      simp only [List.head?_cons, Option.some.injEq] at h
      subst h
      simpa using hc

theorem pyStrip_head_not_ws (l : List Char) (a : Char)
    (h : (pyStrip l).head? = some a) : wsChar a = false := by
  unfold pyStrip at h
  obtain ⟨t, ht⟩ := @List.dropWhile_suffix Char (l.dropWhile wsChar).reverse wsChar
  cases hyr : ((l.dropWhile wsChar).reverse.dropWhile wsChar).reverse with
  | nil => rw [hyr] at h; simp at h
  | cons b z =>
    rw [hyr] at h
    simp only [List.head?_cons, Option.some.injEq] at h
    have hx : l.dropWhile wsChar = (b :: z) ++ t.reverse := by
      have hr := congrArg List.reverse ht
      rw [List.reverse_append, List.reverse_reverse] at hr
      rw [← hr, hyr]
    have hb : wsChar b = false :=
      head?_dropWhile_not wsChar l b (by rw [hx]; rfl)
    rw [← h]
    exact hb

theorem pyStrip_last_not_ws (l : List Char) (a : Char)
    (h : (pyStrip l).getLast? = some a) : wsChar a = false := by
  unfold pyStrip at h
  rw [List.getLast?_reverse] at h
  exact head?_dropWhile_not wsChar (l.dropWhile wsChar).reverse a h

/-- C8 counterexample: consecutive commas in the raw cuisine field produce
an empty-string element, so "no element is the empty string" fails. -/
theorem clean_cuisines_empty_token :
    [] ∈ clean_cuisines (some "Biryani,,Cafe") := by decide

/-- C8 amended: every element of the ingested cuisines sequence is a
trimmed string — no leading or trailing whitespace — though it may be
empty (the split does not discard empty tokens). -/
theorem clean_cuisines_trimmed (s : Option String) (c : List Char)
    (hc : c ∈ clean_cuisines s) :
    (∀ a, c.head? = some a → wsChar a = false) ∧
    (∀ a, c.getLast? = some a → wsChar a = false) := by
  match s with
  | none => simp [clean_cuisines] at hc
  | some s =>
    simp only [clean_cuisines, List.mem_map] at hc
    obtain ⟨x, _, hx⟩ := hc
    subst hx
    exact ⟨fun a ha => pyStrip_head_not_ws x a ha,
           fun a ha => pyStrip_last_not_ws x a ha⟩

/-- Witness for the amended C8: the element "Biryani" of a padded raw field
is whitespace-free at both ends. -/
theorem clean_cuisines_trimmed_witness :
    ("Biryani".data ∈ clean_cuisines (some " Biryani , Cafe")) ∧
    ((∀ a, "Biryani".data.head? = some a → wsChar a = false) ∧
      (∀ a, "Biryani".data.getLast? = some a → wsChar a = false)) :=
  ⟨by decide, clean_cuisines_trimmed (some " Biryani , Cafe") "Biryani".data (by decide)⟩

/-- C3 counterexample: with enrichment unavailable (no API key) and a
record stored as closed (`open_now = "No"`), the response's `is_open` is
`true` — not the stored flag, because the fallback dictionary already
contains `is_open: True` and the `dict.get` default is dead code. -/
theorem is_open_fallback_counterexample :
    respIsOpen (get_google_places_data "" none "Night Owl" "Gachibowli") closedRest = true ∧
    (closedRest.open_now.getD "Yes" == "Yes") = false := by
  constructor
  · decide
  · decide

/-- C3 amended: when the enrichment lookup is unavailable (no API key) or
its call fails, the response's `is_open` is the constant `true` and the
`map_link` is the deterministic fallback link; no error is surfaced (the
embedding is total on both failure paths). -/
theorem enrichment_fallback_amended (apiKey : String)
    (ext : Option (Option Bool × Option String)) (name addr : String) (r : Restaurant)
    (h : apiKey = "" ∨ ext = none) :
    respIsOpen (get_google_places_data apiKey ext name addr) r = true ∧
    respMapLink (get_google_places_data apiKey ext name addr) = fallbackMapLink name := by
  rcases h with h | h
  · subst h
    exact ⟨rfl, rfl⟩
  · subst h
    unfold get_google_places_data respIsOpen respMapLink
    split_ifs <;> exact ⟨rfl, rfl⟩

/-- Witness for the amended C3: the fallback at a concrete record with no
API key. -/
theorem enrichment_fallback_amended_witness :
    (("" : String) = "" ∨ (none : Option (Option Bool × Option String)) = none) ∧
    (respIsOpen (get_google_places_data "" none "Night Owl" "Gachibowli") closedRest = true ∧
      respMapLink (get_google_places_data "" none "Night Owl" "Gachibowli") =
        fallbackMapLink "Night Owl") :=
  ⟨Or.inl rfl,
    enrichment_fallback_amended "" none "Night Owl" "Gachibowli" closedRest (Or.inl rfl)⟩

/-- C7: the ranked list is sorted descending by `ai_score`; candidates with
equal scores keep their pre-sort relative order (for each score value, the
filtered sublist is unchanged); and the returned list is the first 20
entries of the sorted list, hence has at most 20 entries. -/
theorem ranking_sorted_stable_top20 (l : List Scored) :
    topResults l = (rankSort l).take 20 ∧
    (topResults l).length ≤ 20 ∧
    List.Pairwise (fun a b : Scored => b.ai_score ≤ a.ai_score) (rankSort l) ∧
    (∀ c : ℚ, (rankSort l).filter (fun x => decide (x.ai_score = c)) =
      l.filter (fun x => decide (x.ai_score = c))) := by
  have htrans : ∀ a b c : Scored, rankLe a b = true → rankLe b c = true →
      rankLe a c = true := by
    intro a b c hab hbc
    simp only [rankLe, decide_eq_true_eq] at hab hbc ⊢
    exact le_trans hbc hab
  have htotal : ∀ a b : Scored, (rankLe a b || rankLe b a) = true := by
    intro a b
    simp only [rankLe, Bool.or_eq_true, decide_eq_true_eq]
    exact le_total b.ai_score a.ai_score
  refine ⟨rfl, ?_, ?_, ?_⟩
  · exact List.length_take_le 20 (rankSort l)
  · have hs := List.sorted_mergeSort htrans htotal l
    exact List.Pairwise.imp (fun hab => by simpa [rankLe] using hab) hs
  · intro c
    have hsub : (l.filter (fun x => decide (x.ai_score = c))).Sublist l :=
      List.filter_sublist l
    have hpw : List.Pairwise (fun a b => rankLe a b = true)
        (l.filter (fun x => decide (x.ai_score = c))) := by
      apply List.pairwise_of_forall_mem_list
      intro a ha b hb
      have ha' := (List.mem_filter.mp ha).2
      have hb' := (List.mem_filter.mp hb).2
      simp only [decide_eq_true_eq] at ha' hb'
      simp [rankLe, ha', hb']
    have h2 : (l.filter (fun x => decide (x.ai_score = c))).Sublist (rankSort l) :=
      List.sublist_mergeSort htrans htotal hpw hsub
    have h4 := List.Sublist.filter (fun x => decide (x.ai_score = c)) h2
    have h5 : (l.filter (fun x => decide (x.ai_score = c))).filter
        (fun x => decide (x.ai_score = c)) =
        l.filter (fun x => decide (x.ai_score = c)) :=
      List.filter_eq_self.mpr (fun a ha => (List.mem_filter.mp ha).2)
    rw [h5] at h4
    have hlen : ((rankSort l).filter (fun x => decide (x.ai_score = c))).length =
        (l.filter (fun x => decide (x.ai_score = c))).length :=
      ((List.mergeSort_perm l rankLe).filter (fun x => decide (x.ai_score = c))).length_eq
    exact (h4.eq_of_length hlen.symm).symm

theorem isPrefixOf_self (l : List Char) : l.isPrefixOf l = true := by
  induction l with
  | nil => rfl
  | cons c t ih => simp [List.isPrefixOf, ih]

theorem pyIn_self (l : List Char) : pyIn l l = true := by
  cases l with
  | nil => rfl
  | cons c t => simp [pyIn, isPrefixOf_self]

theorem substrCI_refl (s : String) : substrCI s s = true := pyIn_self _

theorem SeenCovered.push {st : List CuisineAgg × List String} (h : SeenCovered st)
    (r : CuisineAgg) : SeenCovered (st.1 ++ [r], st.2 ++ [r.id]) := by
  intro s hs
  rcases List.mem_append.mp hs with hs | hs
  · obtain ⟨r', hr', he⟩ := h s hs
    exact ⟨r', List.mem_append_left _ hr', he⟩
  · have he : s = r.id := by simpa using hs
    subst he
    exact ⟨r, List.mem_append_right _ (by simp), rfl⟩

theorem substrStep_covered (rs : List CuisineAgg) (st : List CuisineAgg × List String)
    (must : String) (h : SeenCovered st) : SeenCovered (substrStep rs st must) := by
  unfold substrStep
  cases hf : rs.find? (fun r => substrCI must r.id && !(st.2.contains r.id)) with
  | none => exact h
  | some r => exact h.push r

theorem mustShowStep_covered (rs : List CuisineAgg) (st : List CuisineAgg × List String)
    (must : String) (h : SeenCovered st) : SeenCovered (mustShowStep rs st must) := by
  unfold mustShowStep
  cases hf : exactFind rs must with
  | none => exact substrStep_covered rs st must h
  | some r =>
    show SeenCovered
      (if st.2.contains must then substrStep rs st must else (st.1 ++ [r], st.2 ++ [must]))
    split_ifs with hc
    · exact substrStep_covered rs st must h
    · have hid : r.id = must := by
        have hp := List.find?_some hf
        simpa using hp
      rw [← hid]
      exact h.push r

theorem substrStep_grow (rs : List CuisineAgg) (st : List CuisineAgg × List String)
    (must : String) : ∃ t, (substrStep rs st must).1 = st.1 ++ t := by
  unfold substrStep
  cases hf : rs.find? (fun r => substrCI must r.id && !(st.2.contains r.id)) with
  | none => exact ⟨[], by simp⟩
  | some r => exact ⟨[r], rfl⟩

theorem mustShowStep_grow (rs : List CuisineAgg) (st : List CuisineAgg × List String)
    (must : String) : ∃ t, (mustShowStep rs st must).1 = st.1 ++ t := by
  unfold mustShowStep
  cases hf : exactFind rs must with
  | none => exact substrStep_grow rs st must
  | some r =>
    show ∃ t,
      (if st.2.contains must then substrStep rs st must else (st.1 ++ [r], st.2 ++ [must])).1 =
        st.1 ++ t
    split_ifs with hc
    · exact substrStep_grow rs st must
    · exact ⟨[r], rfl⟩

theorem foldl_mustShow_grow (rs : List CuisineAgg) (labels : List String)
    (st : List CuisineAgg × List String) :
    ∃ t, (labels.foldl (mustShowStep rs) st).1 = st.1 ++ t := by
  induction labels generalizing st with
  | nil => exact ⟨[], by simp⟩
  | cons m ms ih =>
    rw [List.foldl_cons]
    obtain ⟨t1, h1⟩ := mustShowStep_grow rs st m
    obtain ⟨t2, h2⟩ := ih (mustShowStep rs st m)
    exact ⟨t1 ++ t2, by rw [h2, h1, List.append_assoc]⟩

theorem fillStep_grow (st : List CuisineAgg × List String) (r : CuisineAgg) :
    ∃ t, (fillStep st r).1 = st.1 ++ t := by
  unfold fillStep
  split_ifs with h
  · exact ⟨[r], rfl⟩
  · exact ⟨[], by simp⟩

theorem foldl_fill_grow (rows : List CuisineAgg) (st : List CuisineAgg × List String) :
    ∃ t, (rows.foldl fillStep st).1 = st.1 ++ t := by
  induction rows generalizing st with
  | nil => exact ⟨[], by simp⟩
  | cons r rest ih =>
    rw [List.foldl_cons]
    obtain ⟨t1, h1⟩ := fillStep_grow st r
    obtain ⟨t2, h2⟩ := ih (fillStep st r)
    exact ⟨t1 ++ t2, by rw [h2, h1, List.append_assoc]⟩

theorem hasMatchIn_append_left (F t : List CuisineAgg) (must : String)
    (h : hasMatchIn F must) : hasMatchIn (F ++ t) must := by
  obtain ⟨r, hr, hs⟩ := h
  exact ⟨r, List.mem_append_left _ hr, hs⟩

theorem substrStep_matches (rs : List CuisineAgg) (st : List CuisineAgg × List String)
    (must : String) (hcov : SeenCovered st) (hm : hasMatchIn rs must) :
    hasMatchIn (substrStep rs st must).1 must := by
  unfold substrStep
  cases hf : rs.find? (fun r => substrCI must r.id && !(st.2.contains r.id)) with
  | some r =>
    have hp := List.find?_some hf
    simp only [Bool.and_eq_true] at hp
    exact ⟨r, by simp, hp.1⟩
  | none =>
    obtain ⟨r0, hr0, hs0⟩ := hm
    have hnone := List.find?_eq_none.mp hf r0 hr0
    have hcont : st.2.contains r0.id = true := by
      by_contra hc
      apply hnone
      simp only [Bool.and_eq_true, Bool.not_eq_true']
      exact ⟨hs0, by simpa using hc⟩
    have hmem : r0.id ∈ st.2 := by simpa using hcont
    obtain ⟨r', hr', he⟩ := hcov r0.id hmem
    exact ⟨r', hr', by rw [he]; exact hs0⟩

theorem mustShowStep_matches (rs : List CuisineAgg) (st : List CuisineAgg × List String)
    (must : String) (hcov : SeenCovered st) (hm : hasMatchIn rs must) :
    hasMatchIn (mustShowStep rs st must).1 must := by
  unfold mustShowStep
  cases hf : exactFind rs must with
  | none => exact substrStep_matches rs st must hcov hm
  | some r =>
    show hasMatchIn
      (if st.2.contains must then substrStep rs st must
        else (st.1 ++ [r], st.2 ++ [must])).1 must
    split_ifs with hc
    · exact substrStep_matches rs st must hcov hm
    · have hid : r.id = must := by
        have hp := List.find?_some hf
        simpa using hp
      exact ⟨r, by simp, by rw [hid]; exact substrCI_refl must⟩

theorem foldl_mustShow_matches (rs : List CuisineAgg) (must : String)
    (hm : hasMatchIn rs must) :
    ∀ (labels : List String) (st : List CuisineAgg × List String),
      SeenCovered st → must ∈ labels →
      hasMatchIn ((labels.foldl (mustShowStep rs) st).1) must := by
  intro labels
  induction labels with
  | nil =>
    intro st _ hmem
    simp at hmem
  | cons m ms ih =>
    intro st hcov hmem
    rw [List.foldl_cons]
    rcases List.mem_cons.mp hmem with he | hmem'
    · subst he
      obtain ⟨t, ht⟩ := foldl_mustShow_grow rs ms (mustShowStep rs st must)
      rw [ht]
      exact hasMatchIn_append_left _ t must (mustShowStep_matches rs st must hcov hm)
    · exact ih (mustShowStep rs st m) (mustShowStep_covered rs st m hcov) hmem'

theorem substrStep_len (rs : List CuisineAgg) (st : List CuisineAgg × List String)
    (must : String) : (substrStep rs st must).1.length ≤ st.1.length + 1 := by
  unfold substrStep
  cases hf : rs.find? (fun r => substrCI must r.id && !(st.2.contains r.id)) with
  | none => simp
  | some r => simp

theorem mustShowStep_len (rs : List CuisineAgg) (st : List CuisineAgg × List String)
    (must : String) : (mustShowStep rs st must).1.length ≤ st.1.length + 1 := by
  unfold mustShowStep
  cases hf : exactFind rs must with
  | none => exact substrStep_len rs st must
  | some r =>
    show (if st.2.contains must then substrStep rs st must
      else (st.1 ++ [r], st.2 ++ [must])).1.length ≤ st.1.length + 1
    split_ifs with hc
    · exact substrStep_len rs st must
    · simp

theorem foldl_mustShow_len (rs : List CuisineAgg) (labels : List String)
    (st : List CuisineAgg × List String) :
    (labels.foldl (mustShowStep rs) st).1.length ≤ st.1.length + labels.length := by
  induction labels generalizing st with
  | nil => simp
  | cons m ms ih =>
    rw [List.foldl_cons]
    have h1 := ih (mustShowStep rs st m)
    have h2 := mustShowStep_len rs st m
    simp only [List.length_cons]
    omega

theorem priorityPass_len (rs : List CuisineAgg) : (priorityPass rs).1.length ≤ 5 := by
  have h := foldl_mustShow_len rs MUST_SHOW ([], [])
  simpa [MUST_SHOW] using h

theorem mem_take_of_short {x : CuisineAgg} {F t : List CuisineAgg}
    (hF : F.length ≤ 7) (hx : x ∈ F) : x ∈ (F ++ t).take 7 := by
  rw [List.take_append_eq_append_take, List.take_of_length_le hF]
  exact List.mem_append_left _ hx

/-- C2: the famous-foods output has at most 7 entries; it contains a
matching entry for every priority label with an (exact or case-insensitive
substring) match in the ranked cuisine rows; and it is the 7-truncation of
the priority-pass selections (in priority-list order) followed by the
popularity-filled entries.  The id-uniqueness hypothesis is what `$group`
guarantees for the aggregation rows. -/
theorem famous_foods_priority_spec (rs : List CuisineAgg)
    (_hnd : (rs.map CuisineAgg.id).Nodup) :
    (get_famous_foods rs).length ≤ 7 ∧
    (∀ must ∈ MUST_SHOW, hasMatchIn rs must →
      ∃ e ∈ get_famous_foods rs, substrCI must e.name = true) ∧
    (∃ fills, get_famous_foods rs =
      (((priorityPass rs).1 ++ fills).take 7).map projFood) := by
  obtain ⟨fills, hfills⟩ := foldl_fill_grow rs (priorityPass rs)
  refine ⟨?_, ?_, ⟨fills, ?_⟩⟩
  · unfold get_famous_foods
    rw [List.length_map]
    exact List.length_take_le 7 _
  · intro must hmem hm
    have hcov0 : SeenCovered (([], []) : List CuisineAgg × List String) := by
      intro s hs
      simp at hs
    have h1 : hasMatchIn (priorityPass rs).1 must :=
      foldl_mustShow_matches rs must hm MUST_SHOW ([], []) hcov0 hmem
    obtain ⟨x, hx, hxs⟩ := h1
    have hx7 : x ∈ ((priorityPass rs).1 ++ fills).take 7 :=
      mem_take_of_short (le_trans (priorityPass_len rs) (by omega)) hx
    refine ⟨projFood x, ?_, ?_⟩
    · unfold get_famous_foods
      rw [hfills]
      exact List.mem_map_of_mem projFood hx7
    · exact hxs
  · unfold get_famous_foods
    rw [hfills]

/-- Witness for C2: the guarantees instantiated at a one-row ranked list. -/
theorem famous_foods_priority_spec_witness :
    (([sampleAgg].map CuisineAgg.id).Nodup) ∧
    ((get_famous_foods [sampleAgg]).length ≤ 7 ∧
      (∀ must ∈ MUST_SHOW, hasMatchIn [sampleAgg] must →
        ∃ e ∈ get_famous_foods [sampleAgg], substrCI must e.name = true) ∧
      (∃ fills, get_famous_foods [sampleAgg] =
        (((priorityPass [sampleAgg]).1 ++ fills).take 7).map projFood)) :=
  ⟨by decide, famous_foods_priority_spec [sampleAgg] (by decide)⟩
